import Mathlib

/-!
Verification of the lexicon PDF search service against its specification.

This file shallowly embeds the parts of the C sources that the claims
concern and proves (or refutes) each claim over that embedding:

* `src/cache.c` — the LRU+TTL response cache (`response_cache_set`,
  `response_cache_get`, `evict_lru`, …).  The cache state is modelled by
  the list of live entries in LRU order (most recently used first); the
  hash table of the C code is pure lookup acceleration and has no
  observable effect because entries are located by full key comparison.
  Allocation (`malloc`) outcomes are supplied by an explicit oracle list
  consumed in program order; an exhausted oracle means "allocation
  succeeds".
* `src/src/routes.c` — the cache-key computation of the `/api/search`
  handler.
* `src/src/cli.c` — the order of the walker's deferred clean-up actions
  in `process_pdfs`, as an abstract event trace.
* `src/src/pdf_preprocess.c` — the text cleaner `pdf_text_clean` with its
  helpers `validate_utf8_sequence`, `is_pdf_artifact`,
  `is_reference_page` and `is_index_page`.

Bytes are modelled as `Nat` values (the C code reads them as
`unsigned char`, range 0..255).  Buffers are `List Nat`.  C loops become
fuel-indexed structural recursions; in each case the fuel supplied by the
wrapper is an upper bound on the number of iterations the C loop can
perform (each iteration strictly advances the scan position), so the fuel
never runs out on the wrapper's call.
-/

/-! ## Byte-level helpers -/

/-- Read a byte of the buffer.  Positions past the end read 0, matching the
NUL terminator of the C buffers (the C code never inspects bytes past the
terminator: every comparison against a non-NUL byte fails there). -/
def byteAt (text : List Nat) (i : Nat) : Nat := text.getD i 0

/-- C `isspace` on a byte: space or 0x09..0x0D. -/
def isSpaceB (b : Nat) : Bool := decide (b = 32 ∨ (9 ≤ b ∧ b ≤ 13))

/-- C `isdigit` on a byte. -/
def isDigitB (b : Nat) : Bool := decide (48 ≤ b ∧ b ≤ 57)

/-- C `isupper` on a byte. -/
def isUpperB (b : Nat) : Bool := decide (65 ≤ b ∧ b ≤ 90)

/-- C `isalnum` on a byte. -/
def isAlnumB (b : Nat) : Bool :=
  isDigitB b || isUpperB b || decide (97 ≤ b ∧ b ≤ 122)

/-- The test `strncmp(&text[pos], pat, pat.length) == 0` for a NUL-free pattern:
compare the pattern bytewise against the buffer starting at `pos`. -/
def matchAt (text : List Nat) (pos : Nat) : List Nat → Bool
  | [] => true
  | p :: ps => byteAt text pos == p && matchAt text (pos + 1) ps

/-- The bytes of an ASCII string literal. -/
def asciiStr (s : String) : List Nat := s.toList.map Char.toNat

/-- The window `sliceBytes text pos n` is the `n`-byte window of the buffer at `pos`. -/
def sliceBytes (text : List Nat) (pos : Nat) : Nat → List Nat
  | 0 => []
  | n + 1 => byteAt text pos :: sliceBytes text (pos + 1) n

/-- Does `l` start with `pat`? (used to define byte-sequence containment). -/
def startsWith : List Nat → List Nat → Bool
  | _, [] => true
  | [], _ :: _ => false
  | a :: l, p :: ps => a == p && startsWith l ps

/-- Does `l` contain `pat` as a contiguous byte sequence? -/
def containsSeq : List Nat → List Nat → Bool
  | [], pat => pat.isEmpty
  | a :: t, pat => startsWith (a :: t) pat || containsSeq t pat

/-! ## Response cache (src/cache.c)

The hash table plus doubly linked LRU list of the C code is modelled by
the entry list in recency order, head = most recently used.  `evict_lru`
removes the C list's tail, i.e. the last element. -/

/-- Constant `CACHE_KEY_MAX_LEN` of src/cache.h. -/
def CACHE_KEY_MAX_LEN : Nat := 256

/-- One cache entry (key bytes, value bytes, absolute expiry time). -/
structure CacheEntry where
  key : List Nat
  value : List Nat
  expires_at : Int
  deriving DecidableEq, Repr

/-- The observable cache state: live entries in LRU order (MRU first),
capacity and default TTL. -/
structure ResponseCache where
  entries : List CacheEntry
  capacity : Nat
  default_ttl : Nat
  deriving DecidableEq, Repr

/-- Function `response_cache_create` (src/cache.c:104): zero capacity / TTL select
the defaults `CACHE_DEFAULT_CAPACITY = 1000` and `CACHE_DEFAULT_TTL = 300`. -/
def response_cache_create (capacity default_ttl : Nat) : ResponseCache :=
  ⟨[], if 0 < capacity then capacity else 1000,
    if 0 < default_ttl then default_ttl else 300⟩

/-- Function `evict_lru` (src/cache.c:78): drop the LRU tail; no-op on an empty list. -/
def evict_lru (c : ResponseCache) : ResponseCache :=
  ⟨c.entries.dropLast, c.capacity, c.default_ttl⟩

/-- Locate the entry of `key` (C: hash-bucket walk with `strcmp`). -/
def findEntry (entries : List CacheEntry) (key : List Nat) : Option CacheEntry :=
  entries.find? (fun e => e.key == key)

/-- Remove the entry of `key` from the recency list. -/
def removeEntry (entries : List CacheEntry) (key : List Nat) : List CacheEntry :=
  entries.eraseP (fun e => e.key == key)

/-- TTL selection of `response_cache_set`: a zero override picks the default. -/
def ttlOf (c : ResponseCache) (ttl_override : Nat) : Nat :=
  if 0 < ttl_override then ttl_override else c.default_ttl

/-- Function `response_cache_set` (src/cache.c:196) for non-null arguments, at time
`now`.  `allocs` is the allocation oracle: the update path consumes one
outcome (the value copy), the insert path two (the entry, then the value
copy), in program order; a missing entry means success.  Note that the C
code evicts the LRU victim *before* attempting the insert-path
allocations, so those failures return with the victim already gone. -/
def response_cache_set (now : Int) (c : ResponseCache) (key value : List Nat)
    (ttl_override : Nat) (allocs : List Bool) : Bool × ResponseCache :=
  if key = [] then (false, c)
  else if CACHE_KEY_MAX_LEN ≤ key.length then (false, c)
  else
    match findEntry c.entries key with
    | some _ =>
      if allocs.getD 0 true then
        (true, ⟨⟨key, value, now + (ttlOf c ttl_override : Int)⟩ :: removeEntry c.entries key,
                c.capacity, c.default_ttl⟩)
      else (false, c)
    | none =>
      if allocs.getD 0 true then
        if allocs.getD 1 true then
          (true, ⟨⟨key, value, now + (ttlOf c ttl_override : Int)⟩ ::
                    (if c.capacity ≤ c.entries.length then evict_lru c else c).entries,
                  c.capacity, c.default_ttl⟩)
        else (false, if c.capacity ≤ c.entries.length then evict_lru c else c)
      else (false, if c.capacity ≤ c.entries.length then evict_lru c else c)

/-- The C entry point including its null-pointer guard
(src/cache.c:198 `if (!cache || !key || !value || key[0] == '\0')`):
null arguments are `none`; the guard's empty-key disjunct is re-checked by
`response_cache_set` itself, equivalently. -/
def response_cache_set_raw (now : Int) (cache? : Option ResponseCache)
    (key? value? : Option (List Nat)) (ttl_override : Nat) (allocs : List Bool) :
    Bool × Option ResponseCache :=
  match cache?, key?, value? with
  | some c, some k, some v =>
    let r := response_cache_set now c k v ttl_override allocs
    (r.1, some r.2)
  | _, _, _ => (false, cache?)

/-- Function `response_cache_invalidate` (src/cache.c:282). -/
def response_cache_invalidate (c : ResponseCache) (key : List Nat) : ResponseCache :=
  ⟨removeEntry c.entries key, c.capacity, c.default_ttl⟩

/-- Function `response_cache_get` (src/cache.c:152) at time `now`: a hit copies the
value for the caller (the copy's `malloc` is assumed to succeed; a failing
copy would return a miss without touching the state) and moves the entry
to the MRU front; an expired entry is lazily removed and reported missing. -/
def response_cache_get (now : Int) (c : ResponseCache) (key : List Nat) :
    Option (List Nat) × ResponseCache :=
  match findEntry c.entries key with
  | none => (none, c)
  | some e =>
    if e.expires_at ≤ now then (none, response_cache_invalidate c key)
    else (some e.value, ⟨e :: removeEntry c.entries key, c.capacity, c.default_ttl⟩)

/-- Fold a sequence of `set` operations (value chosen per key by `vf`,
fixed TTL override `t`, all allocations succeeding). -/
def setAll (now : Int) (t : Nat) (vf : List Nat → List Nat)
    (c : ResponseCache) (ks : List (List Nat)) : ResponseCache :=
  ks.foldl (fun c k => (response_cache_set now c k (vf k) t []).2) c

/-! ## Search handler cache key (src/src/routes.c, `pdf_search`) -/

/-- The cache key computed by `pdf_search` (src/src/routes.c:244):
`snprintf(cache_key, sizeof(cache_key), "search:%s", query)` — the
`file_id` query parameter is *not* part of the key; `snprintf` into the
256-byte buffer truncates the key to 255 bytes. -/
def pdf_search_cache_key (q : List Nat) (fileId : Option (List Nat)) : List Nat :=
  let _ := fileId
  (asciiStr "search:" ++ q).take 255

/-- TTL passed to `cache_set` by `pdf_search` (src/src/routes.c:495). -/
def pdf_search_cache_ttl : Nat := 60

/-- Modelled from the spec: the key format `search:<query>:<file_filter|all>`
promised by §4.6 ("Results are cached under key
`search:<query>:<file_filter|all>` with a 60 s TTL"). -/
def spec_search_cache_key (q : List Nat) (fileId : Option (List Nat)) : List Nat :=
  asciiStr "search:" ++ q ++ asciiStr ":" ++ fileId.getD (asciiStr "all")

/-! ## Walker transaction order (src/src/cli.c, `process_pdfs`)

`process_pdfs` registers three `defer` blocks in this order:
1. `threadpool_destroy(threadpool, -1)` — joins the worker pool;
2. `pgconn_destroy(main_conn)`;
3. `COMMIT`/`ROLLBACK` of the main transaction, chosen by
   `atomic_load(&success)` at the moment the block runs.
Deferred blocks run in LIFO order when their scope unwinds, so the
transaction is ended FIRST and the worker pool is joined LAST.  (With
block-scoped cleanup semantics the transaction block, registered inside
`if (!dryrun) { … }`, would run even earlier — before the directory walk;
the trace below uses the LIFO-at-function-exit reading, which is the most
favourable one for the code.)  A document task that has not finished by
the time the transaction block runs cannot have stored `false` into the
shared success flag, so the walker commits. -/

/-- One submitted document task: whether it succeeds, and whether the
schedule lets it finish before the walker's deferred blocks run. -/
structure IndexTask where
  ok : Bool
  doneBeforeUnwind : Bool
  deriving DecidableEq, Repr

/-- Observable events of a non-dryrun `process_pdfs` run. -/
inductive WalkerEvent where
  | beginTx : WalkerEvent
  | insertFile : Nat → WalkerEvent
  | submitTask : Nat → WalkerEvent
  | endTx : Bool → WalkerEvent          -- true = COMMIT, false = ROLLBACK
  | destroyMainConn : WalkerEvent
  | joinWorkerPool : WalkerEvent
  deriving DecidableEq, Repr

/-- The success flag when the transaction defer runs: initially true, and
only tasks that have already completed can have stored `false`
(`atomic_store(params->success, false)` in `process_pdf_task`). -/
def successFlagAtUnwind (tasks : List IndexTask) (walkOk : Bool) : Bool :=
  walkOk && tasks.all (fun t => !t.doneBeforeUnwind || t.ok)

/-- Event trace of a non-dryrun `process_pdfs` run that submits `tasks`
(in order) during the walk: `BEGIN`, the per-PDF inserts and submissions,
then the LIFO unwind — `COMMIT`/`ROLLBACK` (flag read at that instant),
connection teardown, and only then the pool join. -/
def process_pdfs_trace (tasks : List IndexTask) (walkOk : Bool) : List WalkerEvent :=
  [WalkerEvent.beginTx] ++
    (List.range tasks.length).flatMap
      (fun i => [WalkerEvent.insertFile i, WalkerEvent.submitTask i]) ++
    [WalkerEvent.endTx (successFlagAtUnwind tasks walkOk),
     WalkerEvent.destroyMainConn, WalkerEvent.joinWorkerPool]

/-! ## PDF text cleaner (src/src/pdf_preprocess.c) -/

/-- Continuation byte test: 0x80..0xBF. -/
def isCont (b : Nat) : Bool := decide (0x80 ≤ b ∧ b ≤ 0xBF)

/-- Second-byte constraint of a 3-byte sequence, per lead byte
(pdf_preprocess.c:51-57): E0 needs A0..BF (no overlongs), ED needs 80..9F
(no surrogates), the rest need a plain continuation. -/
def cont3Ok (b b2 : Nat) : Bool :=
  if b = 0xE0 then decide (0xA0 ≤ b2 ∧ b2 ≤ 0xBF)
  else if b = 0xED then decide (0x80 ≤ b2 ∧ b2 ≤ 0x9F)
  else isCont b2

/-- Second-byte constraint of a 4-byte sequence, per lead byte
(pdf_preprocess.c:76-85): F0 needs 90..BF, F4 needs 80..8F. -/
def cont4Ok (b b2 : Nat) : Bool :=
  if b = 0xF0 then decide (0x90 ≤ b2 ∧ b2 ≤ 0xBF)
  else if b = 0xF4 then decide (0x80 ≤ b2 ∧ b2 ≤ 0x8F)
  else isCont b2

/-- Function `validate_utf8_sequence` (pdf_preprocess.c:16): classify the byte at
`pos` and check the continuation bytes; returns (valid?, bytes consumed).
Control bytes below 0x20 other than tab/newline/CR are rejected. -/
def validate_utf8_sequence (text : List Nat) (pos len : Nat) : Bool × Nat :=
  let byte := byteAt text pos
  if byte ≤ 0x7F then
    if byte < 0x20 ∧ byte ≠ 9 ∧ byte ≠ 10 ∧ byte ≠ 13 then (false, 1)
    else (true, 1)
  else if 0xC2 ≤ byte ∧ byte ≤ 0xDF then
    if pos + 1 < len then
      if isCont (byteAt text (pos + 1)) then (true, 2) else (false, 1)
    else (false, 1)
  else if 0xE0 ≤ byte ∧ byte ≤ 0xEF then
    if pos + 2 < len then
      if cont3Ok byte (byteAt text (pos + 1)) ∧ isCont (byteAt text (pos + 2)) then (true, 3)
      else (false, 1)
    else (false, 1)
  else if 0xF0 ≤ byte ∧ byte ≤ 0xF4 then
    if pos + 3 < len then
      if cont4Ok byte (byteAt text (pos + 1)) ∧ isCont (byteAt text (pos + 2)) ∧
          isCont (byteAt text (pos + 3)) then (true, 4)
      else (false, 1)
    else (false, 1)
  else (false, 1)

/-- Function `is_pdf_artifact` (pdf_preprocess.c:109): U+FFFD (EF BF BD) and the
zero-width characters U+200B/C/D (E2 80 8B/8C/8D) and U+2060 (E2 81 A0)
are skipped (3 bytes) when they fit before the end of the buffer. -/
def is_pdf_artifact (text : List Nat) (pos len : Nat) : Bool × Nat :=
  let c := byteAt text pos
  if c = 0xEF ∧ pos + 2 < len ∧ byteAt text (pos + 1) = 0xBF ∧ byteAt text (pos + 2) = 0xBD then
    (true, 3)
  else if c = 0xE2 ∧ pos + 2 < len then
    let c1 := byteAt text (pos + 1)
    let c2 := byteAt text (pos + 2)
    if (c1 = 0x80 ∧ (c2 = 0x8B ∨ c2 = 0x8C ∨ c2 = 0x8D)) ∨ (c1 = 0x81 ∧ c2 = 0xA0) then (true, 3)
    else (false, 0)
  else (false, 0)

/-- The dash-run lookahead of `pdf_text_clean` (pdf_preprocess.c:523-533).
`c` is the byte that opened the candidate run.  NOTE the faithful
transcription of the C condition `ahead == '-' || c == '.'`: when the run
opened with `'.'` the first disjunct is irrelevant and EVERY byte within
the 100-byte window counts as a dash.  Returns (dash_count, lookahead). -/
def dashScanGo (text : List Nat) (len stop c : Nat) :
    Nat → Nat → Nat → Nat × Nat
  | 0, count, la => (count, la)
  | fuel + 1, count, la =>
    if la < len ∧ la < stop then
      let ahead := byteAt text la
      if ahead = 45 ∨ c = 46 then dashScanGo text len stop c fuel (count + 1) (la + 1)
      else if ¬ (isSpaceB ahead = true) then (count, la)
      else dashScanGo text len stop c fuel count (la + 1)
    else (count, la)

/-- Dash-run lookahead from `read_pos`, window of 100 bytes (the loop runs
at most 100 iterations, so fuel 100 is exact). -/
def dashScan (text : List Nat) (len read_pos c : Nat) : Nat × Nat :=
  dashScanGo text len (read_pos + 100) c 100 0 read_pos

/-- Bytes of `"http://"`. -/
def patHttp : List Nat := asciiStr "http://"
/-- Bytes of `"https://"`. -/
def patHttps : List Nat := asciiStr "https://"
/-- Bytes of `"www."`. -/
def patWww : List Nat := asciiStr "www."
/-- Bytes of `"doi:"`. -/
def patDoi : List Nat := asciiStr "doi:"
/-- Bytes of `"10."`. -/
def patTenDot : List Nat := asciiStr "10."
/-- Bytes of `"et al."`. -/
def patEtAl : List Nat := asciiStr "et al."

/-- Cursor state of the cleaning loop: read position, whether the last
emitted byte was a separator, and whether a URL is being skipped. -/
structure CleanState where
  read_pos : Nat
  prev_space : Bool
  in_url : Bool
  deriving DecidableEq, Repr

/-- The UTF-8 validation section of the loop body
(pdf_preprocess.c:548-585): whitespace normalisation with paragraph
breaks, the standalone-punctuation drop, the copy of a validated
sequence, and the skip of invalid bytes.  `in_url1` is the URL flag to
carry into the next iteration. -/
def stepCopy (text : List Nat) (len : Nat) (s : CleanState) (in_url1 : Bool) :
    List Nat × CleanState :=
  if (validate_utf8_sequence text s.read_pos len).1 then
    if isSpaceB (byteAt text s.read_pos) then
      if s.prev_space then ([], ⟨s.read_pos + 1, s.prev_space, in_url1⟩)
      else if byteAt text s.read_pos = 10 ∧ s.read_pos + 1 < len ∧
          byteAt text (s.read_pos + 1) = 10 then
        ([10, 10], ⟨s.read_pos + 2, true, in_url1⟩)
      else ([32], ⟨s.read_pos + 1, true, in_url1⟩)
    else if ¬ (isAlnumB (byteAt text s.read_pos) = true) ∧ s.prev_space = false ∧
        (validate_utf8_sequence text s.read_pos len).2 = 1 ∧
        (len ≤ s.read_pos + 1 ∨ isSpaceB (byteAt text (s.read_pos + 1)) = true) ∧
        (byteAt text s.read_pos = 124 ∨ byteAt text s.read_pos = 126 ∨
          byteAt text s.read_pos = 94 ∨ byteAt text s.read_pos = 96) then
      ([], ⟨s.read_pos + 1, s.prev_space, in_url1⟩)
    else (sliceBytes text s.read_pos (validate_utf8_sequence text s.read_pos len).2,
          ⟨s.read_pos + (validate_utf8_sequence text s.read_pos len).2, false, in_url1⟩)
  else ([], ⟨s.read_pos + max (validate_utf8_sequence text s.read_pos len).2 1,
             s.prev_space, in_url1⟩)

/-- The dash-run section of the loop body (pdf_preprocess.c:521-545):
a candidate `-`/`.` with more than 10 bytes left and a lookahead count of
at least 10 collapses the whole scanned region to one separator;
otherwise control falls through to the validation section. -/
def stepDash (text : List Nat) (len : Nat) (s : CleanState) (in_url1 : Bool) :
    List Nat × CleanState :=
  if (byteAt text s.read_pos = 45 ∨ byteAt text s.read_pos = 46) ∧ s.read_pos + 10 < len ∧
      10 ≤ (dashScan text len s.read_pos (byteAt text s.read_pos)).1 then
    if s.prev_space then
      ([], ⟨(dashScan text len s.read_pos (byteAt text s.read_pos)).2, s.prev_space, in_url1⟩)
    else ([32], ⟨(dashScan text len s.read_pos (byteAt text s.read_pos)).2, true, in_url1⟩)
  else stepCopy text len s in_url1

/-- The URL-opener test of pdf_preprocess.c:503-506. -/
def urlFlagAfter (text : List Nat) (len : Nat) (u : Bool) (s : CleanState) : Bool :=
  if u ∧ byteAt text s.read_pos = 104 ∧ s.read_pos + 6 < len ∧
      (matchAt text s.read_pos patHttp ∨ matchAt text s.read_pos patHttps) then true
  else s.in_url

/-- The URL section of the loop body (pdf_preprocess.c:502-518), active
only with `remove_urls`: an `http(s)://` opener raises the URL flag; while
the flag is up, bytes are dropped until whitespace or `)`/`]`/`>`, which
lowers it and emits one separator. -/
def stepUrl (text : List Nat) (len : Nat) (u : Bool) (s : CleanState) :
    List Nat × CleanState :=
  if u ∧ urlFlagAfter text len u s = true then
    if isSpaceB (byteAt text s.read_pos) ∨ byteAt text s.read_pos = 41 ∨
        byteAt text s.read_pos = 93 ∨ byteAt text s.read_pos = 62 then
      if s.prev_space then ([], ⟨s.read_pos + 1, s.prev_space, false⟩)
      else ([32], ⟨s.read_pos + 1, true, false⟩)
    else ([], ⟨s.read_pos + 1, s.prev_space, true⟩)
  else stepDash text len s (urlFlagAfter text len u s)

/-- One iteration of the main loop of `pdf_text_clean`
(pdf_preprocess.c:491-586), as (bytes emitted, next state): the artifact
check first, then the URL / dash / validation sections in program order. -/
def cleanStep (text : List Nat) (len : Nat) (remove_urls : Bool) (s : CleanState) :
    List Nat × CleanState :=
  if (is_pdf_artifact text s.read_pos len).1 then
    ([], ⟨s.read_pos + (is_pdf_artifact text s.read_pos len).2, s.prev_space, s.in_url⟩)
  else stepUrl text len remove_urls s

/-- The main loop of `pdf_text_clean` (`while (read_pos < len &&
text[read_pos] != '\0')`).  Every iteration advances `read_pos` by at
least one byte (artifacts skip 3, URL bytes 1, dash runs ≥ 10, whitespace
1 or 2, copies 1-4, invalid bytes ≥ 1), so fuel `len` bounds the loop. -/
def cleanLoop (text : List Nat) (len : Nat) (remove_urls : Bool) :
    Nat → CleanState → List Nat
  | 0, _ => []
  | fuel + 1, s =>
    if s.read_pos < len ∧ byteAt text s.read_pos ≠ 0 then
      let r := cleanStep text len remove_urls s
      r.1 ++ cleanLoop text len remove_urls fuel r.2
    else []

/-- Leading page-number skip (pdf_preprocess.c:471-479): count up to 10
leading digit/whitespace bytes; the skip applies only when the count is
in 1..9 (a count of 10 leaves the cursor at 0). -/
def skipCount (text : List Nat) (len : Nat) : Nat → Nat → Nat
  | 0, k => k
  | fuel + 1, k =>
    if k < len ∧ k < 10 ∧ (isDigitB (byteAt text k) ∨ isSpaceB (byteAt text k)) then
      skipCount text len fuel (k + 1)
    else k

/-- The leading-trim cursor of `pdf_text_clean`: digit/whitespace page
number artifact, then whitespace, then leading `-`/`.` runs. -/
def skipWhileB (p : Nat → Bool) (text : List Nat) (len : Nat) : Nat → Nat → Nat
  | 0, k => k
  | fuel + 1, k =>
    if k < len ∧ p (byteAt text k) = true then skipWhileB p text len fuel (k + 1) else k

/-- Pop trailing bytes satisfying `p` (C: `while (write_pos > 0 && p(text[write_pos-1])) write_pos--`). -/
def trimTrailing (p : Nat → Bool) (l : List Nat) : List Nat :=
  (l.reverse.dropWhile p).reverse

/-! ### Reference / index page detection -/

/-- Per-line citation flags collected by `is_reference_page`. -/
structure LineFlags where
  has_digit : Bool
  has_url : Bool
  has_doi : Bool
  has_et_al : Bool
  has_year : Bool
  deriving DecidableEq, Repr

/-- The inner byte scan of one line `[j, i)` in `is_reference_page`
(pdf_preprocess.c:193-228).  The year pattern looks at `text[j-1]`; in C
this reads the byte before the line (the previous newline) and for `j = 0`
the byte before the buffer (undefined behaviour); here `byteAt text (0-1)
= byteAt text 0`, which is a digit and fails the `'('`/`' '` test, so the
model gives the year flag `false` there, the only defined reading. -/
def refLineScan (text : List Nat) (i : Nat) : Nat → Nat → LineFlags → LineFlags
  | 0, _, f => f
  | fuel + 1, j, f =>
    if j < i then
      let b := byteAt text j
      let f1 :=
        if isDigitB b then
          let year :=
            decide (j + 4 < i) &&
            (byteAt text (j - 1) == 40 || byteAt text (j - 1) == 32) &&
            isDigitB (byteAt text (j + 1)) && isDigitB (byteAt text (j + 2)) &&
            isDigitB (byteAt text (j + 3)) &&
            (byteAt text (j + 4) == 41 || byteAt text (j + 4) == 46) &&
            (b == 49 || b == 50)
          ⟨true, f.has_url, f.has_doi, f.has_et_al, f.has_year || year⟩
        else f
      let f2 :=
        if j + 7 < i ∧
            (matchAt text j patHttp ∨ matchAt text j patHttps ∨ matchAt text j patWww) then
          ⟨f1.has_digit, true, f1.has_doi, f1.has_et_al, f1.has_year⟩
        else f1
      let f3 :=
        if (j + 4 < i ∧ matchAt text j patDoi = true) ∨
            (j + 8 < i ∧ matchAt text j patTenDot = true ∧ isDigitB (byteAt text (j + 3)) = true) then
          ⟨f2.has_digit, f2.has_url, true, f2.has_et_al, f2.has_year⟩
        else f2
      let f4 :=
        if j + 6 < i ∧ matchAt text j patEtAl = true then
          ⟨f3.has_digit, f3.has_url, f3.has_doi, true, f3.has_year⟩
        else f3
      refLineScan text i fuel (j + 1) f4
    else f

/-- Line statistics accumulated by `is_reference_page`. -/
structure RefStats where
  line_count : Nat
  with_numbers : Nat
  with_urls : Nat
  with_doi : Nat
  with_et_al : Nat
  with_year : Nat
  short_lines : Nat
  capital : Nat
  deriving DecidableEq, Repr

/-- The line loop of `is_reference_page` (pdf_preprocess.c:174-241):
`for (i = 0; i <= len; i++)`, a line ends at `'\n'` or at `len`; empty
lines are not counted; short lines are those under 20 bytes. -/
def refLines (text : List Nat) (len : Nat) : Nat → Nat → Nat → RefStats → RefStats
  | 0, _, _, st => st
  | fuel + 1, i, line_start, st =>
    if i ≤ len then
      if i = len ∨ byteAt text i = 10 then
        let line_len := i - line_start
        let st' :=
          if 0 < line_len then
            let f := refLineScan text i (i - line_start) line_start ⟨false, false, false, false, false⟩
            { line_count := st.line_count + 1
              with_numbers := st.with_numbers + (if f.has_digit then 1 else 0)
              with_urls := st.with_urls + (if f.has_url then 1 else 0)
              with_doi := st.with_doi + (if f.has_doi then 1 else 0)
              with_et_al := st.with_et_al + (if f.has_et_al then 1 else 0)
              with_year := st.with_year + (if f.has_year then 1 else 0)
              short_lines := st.short_lines + (if line_len < 20 then 1 else 0)
              capital := st.capital + (if isUpperB (byteAt text line_start) then 1 else 0) }
          else st
        refLines text len fuel (i + 1) (i + 1) st'
      else refLines text len fuel (i + 1) line_start st
    else st

/-- Reference statistics of a buffer (fuel `len + 2` covers the inclusive
loop `0..len`). -/
def refStatsOf (text : List Nat) (len : Nat) : RefStats :=
  refLines text len (len + 2) 0 0 ⟨0, 0, 0, 0, 0, 0, 0, 0⟩

/-- Comparison `num / den > p / q`, the exact-arithmetic reading of the C float
comparison `(float)num / den > (double)p/q`.  The C code computes the
ratio in IEEE single precision and compares against a double literal; the
two readings agree except when `num / den` falls within a rounding step
of the threshold, and no claim in this development is settled at such a
boundary. -/
def ratioGt (num den p q : Nat) : Bool := decide (p * den < q * num)

/-- Function `is_reference_page` (pdf_preprocess.c:141): header prefixes, line
statistics, and the disjunction of reference / index heuristics.  The C
guard `len < 50` rejects short buffers and fewer than 3 lines are never
classified. -/
def is_reference_page (text : List Nat) (len : Nat) : Bool :=
  if len < 50 then false
  else
    let hdrRef := decide (15 < len) &&
      (matchAt text 0 (asciiStr "References") || matchAt text 0 (asciiStr "REFERENCES"))
    let hdrBib := decide (15 < len) &&
      (matchAt text 0 (asciiStr "Bibliography") || matchAt text 0 (asciiStr "BIBLIOGRAPHY"))
    let hdrIdx := decide (15 < len) &&
      (matchAt text 0 (asciiStr "Index") || matchAt text 0 (asciiStr "INDEX"))
    let st := refStatsOf text len
    if st.line_count < 3 then false
    else
      let lc := st.line_count
      let likely_refs :=
        (hdrRef || hdrBib) ||
        (ratioGt st.with_urls lc 3 10 || ratioGt st.with_doi lc 1 5) ||
        ratioGt st.with_et_al lc 1 5 ||
        ratioGt st.with_year lc 2 5 ||
        (ratioGt st.with_urls lc 3 20 && ratioGt st.with_year lc 1 4) ||
        (ratioGt st.with_doi lc 1 10 && ratioGt st.with_et_al lc 1 10) ||
        ratioGt st.with_numbers lc 7 10
      let likely_idx :=
        hdrIdx ||
        (ratioGt st.short_lines lc 3 5 && ratioGt st.capital lc 7 10) ||
        (ratioGt st.short_lines lc 1 2 && ratioGt st.with_numbers lc 1 2)
      likely_refs || likely_idx

/-- Per-line pattern counts of `is_index_page`'s inner scan
(pdf_preprocess.c:357-372), over the content range `[j, i)`:
(digit_count, comma_count, has_dash).  A dash is ASCII `'-'` or an
en/em-dash E2 80 93/94 fitting before `i`. -/
def idxLineScan (text : List Nat) (i : Nat) : Nat → Nat → Nat × Nat × Bool → Nat × Nat × Bool
  | 0, _, acc => acc
  | fuel + 1, j, acc =>
    if j < i then
      let b := byteAt text j
      let digits := acc.1 + (if isDigitB b then 1 else 0)
      let commas := acc.2.1 + (if b = 44 then 1 else 0)
      let dash := acc.2.2 ||
        (b == 45 ||
          (decide (j + 2 < i) && byteAt text j == 0xE2 && byteAt text (j + 1) == 0x80 &&
            (byteAt text (j + 2) == 0x93 || byteAt text (j + 2) == 0x94)))
      idxLineScan text i fuel (j + 1) (digits, commas, dash)
    else acc

/-- Line statistics accumulated by `is_index_page`. -/
structure IdxStats where
  line_count : Nat
  short_lines : Nat       -- content under 40 bytes
  very_short : Nat        -- content under 20 bytes
  with_numbers : Nat
  with_commas : Nat       -- a comma together with a digit
  capital : Nat
  indented : Nat          -- ≥ 2 leading whitespace bytes
  with_dash : Nat
  deriving DecidableEq, Repr

/-- The line loop of `is_index_page` (pdf_preprocess.c:314-391): lines of
positive raw length are counted; the per-line statistics are computed on
the content after leading whitespace and only for nonempty content. -/
def idxLines (text : List Nat) (len : Nat) : Nat → Nat → Nat → IdxStats → IdxStats
  | 0, _, _, st => st
  | fuel + 1, i, line_start, st =>
    if i ≤ len then
      if i = len ∨ byteAt text i = 10 then
        let line_len := i - line_start
        let st' :=
          if 0 < line_len then
            let content_start := skipWhileB isSpaceB text i (i - line_start) line_start
            let indent := content_start - line_start
            let content_len := i - content_start
            let stc := { st with line_count := st.line_count + 1 }
            if 0 < content_len then
              let sc := idxLineScan text i (i - content_start) content_start (0, 0, false)
              { line_count := stc.line_count
                short_lines := stc.short_lines + (if content_len < 40 then 1 else 0)
                very_short := stc.very_short + (if content_len < 20 then 1 else 0)
                with_numbers := stc.with_numbers + (if 0 < sc.1 then 1 else 0)
                with_commas := stc.with_commas + (if 1 ≤ sc.2.1 ∧ 0 < sc.1 then 1 else 0)
                capital := stc.capital + (if isUpperB (byteAt text content_start) then 1 else 0)
                indented := stc.indented + (if 2 ≤ indent then 1 else 0)
                with_dash := stc.with_dash + (if sc.2.2 then 1 else 0) }
            else stc
          else st
        idxLines text len fuel (i + 1) (i + 1) st'
      else idxLines text len fuel (i + 1) line_start st
    else st

/-- Index statistics of a buffer. -/
def idxStatsOf (text : List Nat) (len : Nat) : IdxStats :=
  idxLines text len (len + 2) 0 0 ⟨0, 0, 0, 0, 0, 0, 0, 0⟩

/-- Function `is_index_page` (pdf_preprocess.c:289): header prefix, line statistics
and the index heuristics; buffers under 50 bytes or under 5 lines are
never classified. -/
def is_index_page (text : List Nat) (len : Nat) : Bool :=
  if len < 50 then false
  else
    let hdrIdx := decide (5 < len) &&
      (matchAt text 0 (asciiStr "Index") || matchAt text 0 (asciiStr "INDEX"))
    let st := idxStatsOf text len
    if st.line_count < 5 then false
    else
      let lc := st.line_count
      hdrIdx ||
      (ratioGt st.short_lines lc 7 10 && ratioGt st.capital lc 3 5 &&
        ratioGt st.with_numbers lc 1 2) ||
      (ratioGt st.with_commas lc 2 5 && ratioGt st.with_numbers lc 3 5) ||
      (ratioGt st.indented lc 1 5 && ratioGt st.with_numbers lc 1 2 &&
        ratioGt st.capital lc 1 2) ||
      (ratioGt st.very_short lc 1 2 && ratioGt st.capital lc 7 10 &&
        ratioGt st.with_numbers lc 2 5) ||
      (ratioGt st.with_dash lc 3 20 && ratioGt st.capital lc 3 5)

/-- A dash or dot byte (`'-'` / `'.'`). -/
def isDashDot (b : Nat) : Bool := b == 45 || b == 46

/-- The leading-trim cursor of `pdf_text_clean` (pdf_preprocess.c:470-489):
skip a 1-9 byte digit/whitespace page-number artifact (a run of 10 or
more leaves the cursor at 0), then whitespace, then leading `-`/`.`. -/
def cleanStart (text : List Nat) : Nat :=
  let len := text.length
  let rp0 :=
    if 0 < len ∧ isDigitB (byteAt text 0) = true then
      let skip := skipCount text len 10 0
      if 0 < skip ∧ skip < 10 then skip else 0
    else 0
  skipWhileB isDashDot text len len (skipWhileB isSpaceB text len len rp0)

/-- The buffer contents after the main cleaning loop (the value of
`text[0..write_pos)` at pdf_preprocess.c:588). -/
def cleanedBody (text : List Nat) (remove_urls : Bool) : List Nat :=
  cleanLoop text text.length remove_urls text.length ⟨cleanStart text, true, false⟩

/-- Function `pdf_text_clean` (pdf_preprocess.c:462): leading trims, the cleaning
loop, the reference/index rejection (on more than 100 cleaned bytes the
whole text is zeroed), trailing whitespace and dash trims, and the 3-byte
length floor.  The C function rewrites its buffer in place; the read
cursor never falls behind the write cursor (each iteration emits at most
as many bytes as it consumes), so reads always see the original input and
the function is the list transformation below. -/
def pdf_text_clean (text : List Nat) (remove_urls : Bool) : List Nat :=
  if 100 < (cleanedBody text remove_urls).length ∧
      (is_reference_page (cleanedBody text remove_urls)
          (cleanedBody text remove_urls).length = true ∨
        is_index_page (cleanedBody text remove_urls)
          (cleanedBody text remove_urls).length = true) then []
  else if (trimTrailing isDashDot (trimTrailing isSpaceB (cleanedBody text remove_urls))).length < 3 then []
  else trimTrailing isDashDot (trimTrailing isSpaceB (cleanedBody text remove_urls))

/-! ## Spec-side definitions

These are written from the specification's words, to state properties
against (claim C4's "valid UTF-8" and forbidden characters, claim C1's
promised key format, claim C5's signal table). -/

/-- A single well-formed UTF-8 scalar encoding (strict: no overlongs, no
surrogates, max U+10FFFF), as a byte list. -/
def Utf8CharB : List Nat → Bool
  | [b] => decide (b ≤ 0x7F)
  | [b, b2] => decide (0xC2 ≤ b ∧ b ≤ 0xDF) && isCont b2
  | [b, b2, b3] => decide (0xE0 ≤ b ∧ b ≤ 0xEF) && cont3Ok b b2 && isCont b3
  | [b, b2, b3, b4] => decide (0xF0 ≤ b ∧ b ≤ 0xF4) && cont4Ok b b2 && isCont b3 && isCont b4
  | _ => false

/-- Validity of a whole byte string as UTF-8 (strict).  The list patterns
are flattened so each equation is self-contained. -/
def Utf8Valid : List Nat → Bool
  | [] => true
  | [b] => decide (b ≤ 0x7F)
  | [b, b2] =>
    if b ≤ 0x7F then Utf8Valid [b2]
    else decide (0xC2 ≤ b ∧ b ≤ 0xDF) && isCont b2
  | [b, b2, b3] =>
    if b ≤ 0x7F then Utf8Valid [b2, b3]
    else if 0xC2 ≤ b ∧ b ≤ 0xDF then isCont b2 && Utf8Valid [b3]
    else decide (0xE0 ≤ b ∧ b ≤ 0xEF) && cont3Ok b b2 && isCont b3
  | b :: b2 :: b3 :: b4 :: l =>
    if b ≤ 0x7F then Utf8Valid (b2 :: b3 :: b4 :: l)
    else if 0xC2 ≤ b ∧ b ≤ 0xDF then isCont b2 && Utf8Valid (b3 :: b4 :: l)
    else if 0xE0 ≤ b ∧ b ≤ 0xEF then cont3Ok b b2 && isCont b3 && Utf8Valid (b4 :: l)
    else if 0xF0 ≤ b ∧ b ≤ 0xF4 then cont4Ok b b2 && isCont b3 && isCont b4 && Utf8Valid l
    else false

/-- The byte sequences §4.1 forbids in cleaned output: U+FFFD, U+200B,
U+200C, U+200D, U+2060. -/
def bannedSeqs : List (List Nat) :=
  [[0xEF, 0xBF, 0xBD], [0xE2, 0x80, 0x8B], [0xE2, 0x80, 0x8C], [0xE2, 0x80, 0x8D],
   [0xE2, 0x81, 0xA0]]

/-- A byte the claim C4 allows in cleaned output: tab, newline, carriage
return, or a non-control byte. -/
def AllowedByte (b : Nat) : Prop := b = 9 ∨ b = 10 ∨ b = 13 ∨ 32 ≤ b

/-! ## Well-formedness of the cleaner's output (towards C4) -/

/-- A chunk the cleaning loop can emit in one iteration: nothing, a
separator space, a preserved paragraph break, or one whole validated
UTF-8 character that is not an artifact sequence. -/
def GoodChunk (c : List Nat) : Prop :=
  c = [] ∨ c = [32] ∨ c = [10, 10] ∨
  (Utf8CharB c = true ∧ (∀ b ∈ c, AllowedByte b) ∧ ∀ pat ∈ bannedSeqs, c ≠ pat)

/-- Byte strings that are concatenations of good chunks. -/
inductive GoodOut : List Nat → Prop where
  | nil : GoodOut []
  | space {r : List Nat} : GoodOut r → GoodOut (32 :: r)
  | nl {r : List Nat} : GoodOut r → GoodOut (10 :: r)
  | chr {c r : List Nat} : Utf8CharB c = true → (∀ b ∈ c, AllowedByte b) →
      (∀ pat ∈ bannedSeqs, c ≠ pat) → GoodOut r → GoodOut (c ++ r)

/-- Shape inversion for single UTF-8 characters. -/
theorem utf8CharB_cases {c : List Nat} (h : Utf8CharB c = true) :
    (∃ b, c = [b] ∧ b ≤ 0x7F) ∨
    (∃ b b2, c = [b, b2] ∧ (0xC2 ≤ b ∧ b ≤ 0xDF) ∧ isCont b2 = true) ∨
    (∃ b b2 b3, c = [b, b2, b3] ∧ (0xE0 ≤ b ∧ b ≤ 0xEF) ∧ cont3Ok b b2 = true ∧
      isCont b3 = true) ∨
    (∃ b b2 b3 b4, c = [b, b2, b3, b4] ∧ (0xF0 ≤ b ∧ b ≤ 0xF4) ∧ cont4Ok b b2 = true ∧
      isCont b3 = true ∧ isCont b4 = true) := by
  match c with
  | [b] =>
    left; exact ⟨b, rfl, by simpa [Utf8CharB] using h⟩
  | [b, b2] =>
    right; left
    simp only [Utf8CharB, Bool.and_eq_true, decide_eq_true_eq] at h
    exact ⟨b, b2, rfl, h.1, h.2⟩
  | [b, b2, b3] =>
    right; right; left
    simp only [Utf8CharB, Bool.and_eq_true, decide_eq_true_eq] at h
    exact ⟨b, b2, b3, rfl, h.1.1, h.1.2, h.2⟩
  | [b, b2, b3, b4] =>
    right; right; right
    simp only [Utf8CharB, Bool.and_eq_true, decide_eq_true_eq] at h
    exact ⟨b, b2, b3, b4, rfl, h.1.1.1, h.1.1.2, h.1.2, h.2⟩
  | [] => simp [Utf8CharB] at h
  | _ :: _ :: _ :: _ :: _ :: _ => simp [Utf8CharB] at h

/-- Unfolding: ASCII head. -/
theorem utf8Valid_ascii {b : Nat} (l : List Nat) (hb : b ≤ 0x7F) :
    Utf8Valid (b :: l) = Utf8Valid l := by
  match l with
  | [] => simp [Utf8Valid, hb]
  | [b2] => simp [Utf8Valid, hb]
  | [b2, b3] => simp [Utf8Valid, hb]
  | b2 :: b3 :: b4 :: l => simp [Utf8Valid, hb]

/-- Unfolding: 2-byte head. -/
theorem utf8Valid_two {b b2 : Nat} (l : List Nat) (hb : 0xC2 ≤ b ∧ b ≤ 0xDF) :
    Utf8Valid (b :: b2 :: l) = (isCont b2 && Utf8Valid l) := by
  have hb7 : ¬ b ≤ 0x7F := by omega
  match l with
  | [] => simp [Utf8Valid, hb7, hb]
  | [b3] => simp [Utf8Valid, hb7, hb]
  | b3 :: b4 :: l => simp [Utf8Valid, hb7, hb]

/-- Unfolding: 3-byte head. -/
theorem utf8Valid_three {b b2 b3 : Nat} (l : List Nat) (hb : 0xE0 ≤ b ∧ b ≤ 0xEF) :
    Utf8Valid (b :: b2 :: b3 :: l) = (cont3Ok b b2 && isCont b3 && Utf8Valid l) := by
  have hb7 : ¬ b ≤ 0x7F := by omega
  have hbb : ¬ (0xC2 ≤ b ∧ b ≤ 0xDF) := by omega
  match l with
  | [] => simp [Utf8Valid, hb7, hbb, hb, Bool.and_assoc]
  | b4 :: l => simp [Utf8Valid, hb7, hbb, hb, Bool.and_assoc]

/-- Unfolding: 4-byte head. -/
theorem utf8Valid_four {b b2 b3 b4 : Nat} (l : List Nat) (hb : 0xF0 ≤ b ∧ b ≤ 0xF4) :
    Utf8Valid (b :: b2 :: b3 :: b4 :: l) =
      (cont4Ok b b2 && isCont b3 && isCont b4 && Utf8Valid l) := by
  have hb7 : ¬ b ≤ 0x7F := by omega
  have hbb : ¬ (0xC2 ≤ b ∧ b ≤ 0xDF) := by omega
  have hbc : ¬ (0xE0 ≤ b ∧ b ≤ 0xEF) := by omega
  simp [Utf8Valid, hb7, hbb, hbc, hb, Bool.and_assoc]

/-- Prepending one well-formed character preserves UTF-8 validity. -/
theorem utf8Valid_append {c r : List Nat} (hc : Utf8CharB c = true)
    (hr : Utf8Valid r = true) : Utf8Valid (c ++ r) = true := by
  rcases utf8CharB_cases hc with ⟨b, rfl, hb⟩ | ⟨b, b2, rfl, hb, h2⟩ |
    ⟨b, b2, b3, rfl, hb, h2, h3⟩ | ⟨b, b2, b3, b4, rfl, hb, h2, h3, h4⟩
  · simp only [List.cons_append, List.nil_append]
    rw [utf8Valid_ascii _ hb, hr]
  · simp only [List.cons_append, List.nil_append]
    rw [utf8Valid_two _ hb, h2, hr]; rfl
  · simp only [List.cons_append, List.nil_append]
    rw [utf8Valid_three _ hb, h2, h3, hr]; rfl
  · simp only [List.cons_append, List.nil_append]
    rw [utf8Valid_four _ hb, h2, h3, h4, hr]; rfl


/-- Inversion of a successful `validate_utf8_sequence`: the accepted
window is 1-4 bytes with the byte-range facts of each branch. -/
theorem validate_inv {text : List Nat} {pos len : Nat}
    (h : (validate_utf8_sequence text pos len).1 = true) :
    ((validate_utf8_sequence text pos len).2 = 1 ∧ byteAt text pos ≤ 0x7F ∧
      (byteAt text pos = 9 ∨ byteAt text pos = 10 ∨ byteAt text pos = 13 ∨
        32 ≤ byteAt text pos)) ∨
    ((validate_utf8_sequence text pos len).2 = 2 ∧ pos + 1 < len ∧
      (0xC2 ≤ byteAt text pos ∧ byteAt text pos ≤ 0xDF) ∧
      isCont (byteAt text (pos + 1)) = true) ∨
    ((validate_utf8_sequence text pos len).2 = 3 ∧ pos + 2 < len ∧
      (0xE0 ≤ byteAt text pos ∧ byteAt text pos ≤ 0xEF) ∧
      cont3Ok (byteAt text pos) (byteAt text (pos + 1)) = true ∧
      isCont (byteAt text (pos + 2)) = true) ∨
    ((validate_utf8_sequence text pos len).2 = 4 ∧ pos + 3 < len ∧
      (0xF0 ≤ byteAt text pos ∧ byteAt text pos ≤ 0xF4) ∧
      cont4Ok (byteAt text pos) (byteAt text (pos + 1)) = true ∧
      isCont (byteAt text (pos + 2)) = true ∧ isCont (byteAt text (pos + 3)) = true) := by
  simp only [validate_utf8_sequence] at h ⊢
  split_ifs at h ⊢ <;> simp_all
  omega

/-- Continuation-byte facts from `cont3Ok`. -/
theorem cont3Ok_range {b b2 : Nat} (h : cont3Ok b b2 = true) : 0x80 ≤ b2 ∧ b2 ≤ 0xBF := by
  unfold cont3Ok at h
  split_ifs at h <;> simp_all [isCont] <;> omega

/-- Continuation-byte facts from `cont4Ok`. -/
theorem cont4Ok_range {b b2 : Nat} (h : cont4Ok b b2 = true) : 0x80 ≤ b2 ∧ b2 ≤ 0xBF := by
  unfold cont4Ok at h
  split_ifs at h <;> simp_all [isCont] <;> omega

/-- Slice of size 1. -/
theorem sliceBytes_one (text : List Nat) (pos : Nat) :
    sliceBytes text pos 1 = [byteAt text pos] := rfl

/-- Slice of size 2. -/
theorem sliceBytes_two (text : List Nat) (pos : Nat) :
    sliceBytes text pos 2 = [byteAt text pos, byteAt text (pos + 1)] := rfl

/-- Slice of size 3. -/
theorem sliceBytes_three (text : List Nat) (pos : Nat) :
    sliceBytes text pos 3 = [byteAt text pos, byteAt text (pos + 1), byteAt text (pos + 2)] := rfl

/-- Slice of size 4. -/
theorem sliceBytes_four (text : List Nat) (pos : Nat) :
    sliceBytes text pos 4 =
      [byteAt text pos, byteAt text (pos + 1), byteAt text (pos + 2), byteAt text (pos + 3)] := rfl

/-- A window accepted by the validator at a position where the artifact
check failed is one well-formed character, contains only allowed bytes,
and is none of the forbidden sequences. -/
theorem validate_slice_good {text : List Nat} {pos len : Nat}
    (hv : (validate_utf8_sequence text pos len).1 = true)
    (hart : (is_pdf_artifact text pos len).1 = false) :
    Utf8CharB (sliceBytes text pos (validate_utf8_sequence text pos len).2) = true ∧
    (∀ b ∈ sliceBytes text pos (validate_utf8_sequence text pos len).2, AllowedByte b) ∧
    (∀ pat ∈ bannedSeqs, sliceBytes text pos (validate_utf8_sequence text pos len).2 ≠ pat) := by
  rcases validate_inv hv with ⟨hn, hb, hall⟩ | ⟨hn, hlen, hb, h2⟩ |
    ⟨hn, hlen, hb, h2, h3⟩ | ⟨hn, hlen, hb, h2, h3, h4⟩
  · rw [hn, sliceBytes_one]
    refine ⟨by simpa [Utf8CharB] using hb, ?_, ?_⟩
    · intro b hbm
      simp only [List.mem_singleton] at hbm
      subst hbm
      exact hall
    · intro pat hp
      simp only [bannedSeqs, List.mem_cons, List.not_mem_nil, or_false] at hp
      rcases hp with rfl | rfl | rfl | rfl | rfl
      all_goals simp
  · rw [hn, sliceBytes_two]
    have h2' := h2
    simp only [isCont, decide_eq_true_eq] at h2'
    refine ⟨by simp [Utf8CharB, hb, h2], ?_, ?_⟩
    · intro b hbm
      simp only [List.mem_cons, List.not_mem_nil, or_false] at hbm
      rcases hbm with rfl | rfl
      · right; right; right; omega
      · right; right; right; omega
    · intro pat hp
      simp only [bannedSeqs, List.mem_cons, List.not_mem_nil, or_false] at hp
      rcases hp with rfl | rfl | rfl | rfl | rfl
      all_goals simp
  · rw [hn, sliceBytes_three]
    have h2' := cont3Ok_range h2
    have h3' := h3
    simp only [isCont, decide_eq_true_eq] at h3'
    refine ⟨by simp [Utf8CharB, hb, h2, h3], ?_, ?_⟩
    · intro b hbm
      simp only [List.mem_cons, List.not_mem_nil, or_false] at hbm
      rcases hbm with rfl | rfl | rfl
      · right; right; right; omega
      · right; right; right; omega
      · right; right; right; omega
    · have hart' := hart
      simp only [is_pdf_artifact] at hart'
      intro pat hp
      simp only [bannedSeqs, List.mem_cons, List.not_mem_nil, or_false] at hp
      rcases hp with rfl | rfl | rfl | rfl | rfl
      all_goals intro he
      all_goals simp only [List.cons.injEq, and_true] at he
      all_goals simp [he.1, he.2.1, he.2.2, hlen] at hart'
  · rw [hn, sliceBytes_four]
    have h2' := cont4Ok_range h2
    have h3' := h3
    have h4' := h4
    simp only [isCont, decide_eq_true_eq] at h3' h4'
    refine ⟨by simp [Utf8CharB, hb, h2, h3, h4], ?_, ?_⟩
    · intro b hbm
      simp only [List.mem_cons, List.not_mem_nil, or_false] at hbm
      rcases hbm with rfl | rfl | rfl | rfl
      · right; right; right; omega
      · right; right; right; omega
      · right; right; right; omega
      · right; right; right; omega
    · intro pat hp
      simp only [bannedSeqs, List.mem_cons, List.not_mem_nil, or_false] at hp
      rcases hp with rfl | rfl | rfl | rfl | rfl
      all_goals simp


/-- The validation section emits a good chunk whenever the artifact check
at the same position failed. -/
theorem stepCopy_good (text : List Nat) (len : Nat) (s : CleanState) (iu : Bool)
    (hart : (is_pdf_artifact text s.read_pos len).1 = false) :
    GoodChunk (stepCopy text len s iu).1 := by
  unfold GoodChunk stepCopy
  split_ifs with h1 h2 h3 h4 h5
  · exact Or.inl rfl
  · exact Or.inr (Or.inr (Or.inl rfl))
  · exact Or.inr (Or.inl rfl)
  · exact Or.inl rfl
  · exact Or.inr (Or.inr (Or.inr (validate_slice_good h1 hart)))
  · exact Or.inl rfl

/-- The dash section emits a good chunk under the same side condition. -/
theorem stepDash_good (text : List Nat) (len : Nat) (s : CleanState) (iu : Bool)
    (hart : (is_pdf_artifact text s.read_pos len).1 = false) :
    GoodChunk (stepDash text len s iu).1 := by
  unfold stepDash
  split_ifs with h1 h2
  · exact Or.inl rfl
  · exact Or.inr (Or.inl rfl)
  · exact stepCopy_good text len s iu hart

/-- The URL section emits a good chunk under the same side condition. -/
theorem stepUrl_good (text : List Nat) (len : Nat) (u : Bool) (s : CleanState)
    (hart : (is_pdf_artifact text s.read_pos len).1 = false) :
    GoodChunk (stepUrl text len u s).1 := by
  unfold stepUrl
  split_ifs with h1 h2 h3
  · exact Or.inl rfl
  · exact Or.inr (Or.inl rfl)
  · exact Or.inl rfl
  · exact stepDash_good text len s _ hart

/-- Every chunk emitted by one loop iteration is good. -/
theorem cleanStep_good (text : List Nat) (len : Nat) (u : Bool) (s : CleanState) :
    GoodChunk (cleanStep text len u s).1 := by
  unfold cleanStep
  split_ifs with h1
  · exact Or.inl rfl
  · exact stepUrl_good text len u s (by simpa using h1)

/-- Concatenating a good chunk onto good output yields good output. -/
theorem goodOut_chunk_append {c r : List Nat} (hc : GoodChunk c) (hr : GoodOut r) :
    GoodOut (c ++ r) := by
  rcases hc with rfl | rfl | rfl | ⟨h1, h2, h3⟩
  · simpa using hr
  · exact GoodOut.space hr
  · exact GoodOut.nl (GoodOut.nl hr)
  · exact GoodOut.chr h1 h2 h3 hr

/-- The whole cleaning loop produces good output, for every fuel and
every starting state. -/
theorem goodOut_cleanLoop (text : List Nat) (len : Nat) (u : Bool) :
    ∀ (fuel : Nat) (s : CleanState), GoodOut (cleanLoop text len u fuel s) := by
  intro fuel
  induction fuel with
  | zero => intro s; exact GoodOut.nil
  | succ n ih =>
    intro s
    unfold cleanLoop
    split_ifs with h1
    · exact goodOut_chunk_append (cleanStep_good text len u s) (ih _)
    · exact GoodOut.nil

/-- Good output is valid UTF-8. -/
theorem goodOut_utf8 {l : List Nat} (hl : GoodOut l) : Utf8Valid l = true := by
  induction hl with
  | nil => rfl
  | space hr ih => rw [utf8Valid_ascii _ (by norm_num), ih]
  | nl hr ih => rw [utf8Valid_ascii _ (by norm_num), ih]
  | chr h1 h2 h3 hr ih => exact utf8Valid_append h1 ih

/-- Good output contains only allowed bytes. -/
theorem goodOut_allowed {l : List Nat} (hl : GoodOut l) : ∀ b ∈ l, AllowedByte b := by
  induction hl with
  | nil => intro b hb; exact absurd hb (List.not_mem_nil b)
  | space hr ih =>
    intro b hb
    rcases List.mem_cons.1 hb with rfl | hb
    · right; right; right; omega
    · exact ih b hb
  | nl hr ih =>
    intro b hb
    rcases List.mem_cons.1 hb with rfl | hb
    · right; left; rfl
    · exact ih b hb
  | chr h1 h2 h3 hr ih =>
    intro b hb
    rcases List.mem_append.1 hb with hb | hb
    · exact h2 b hb
    · exact ih b hb

/-- Head mismatch makes `startsWith` fail. -/
theorem startsWith_cons_ne {a p : Nat} {l ps : List Nat} (h : a ≠ p) :
    startsWith (a :: l) (p :: ps) = false := by
  simp [startsWith, h]

/-- Good output never contains a three-byte sequence led by a 3-byte lead
byte unless some emitted character is that exact sequence. -/
theorem goodOut_not_contains_aux {p0 p1 p2 : Nat} (hp0 : 0xE0 ≤ p0 ∧ p0 ≤ 0xEF)
    (hmem : [p0, p1, p2] ∈ bannedSeqs) {l : List Nat} (hl : GoodOut l) :
    containsSeq l [p0, p1, p2] = false := by
  induction hl with
  | nil => rfl
  | space hr ih =>
    simp only [containsSeq, startsWith_cons_ne (show (32:Nat) ≠ p0 by omega),
      Bool.false_or]
    exact ih
  | nl hr ih =>
    simp only [containsSeq, startsWith_cons_ne (show (10:Nat) ≠ p0 by omega),
      Bool.false_or]
    exact ih
  | @chr c r h1 h2 h3 hr ih =>
    rcases utf8CharB_cases h1 with ⟨b, rfl, hb⟩ | ⟨b, b2, rfl, hb, hc2⟩ |
      ⟨b, b2, b3, rfl, hb, hc2, hc3⟩ | ⟨b, b2, b3, b4, rfl, hb, hc2, hc3, hc4⟩
    · show containsSeq (b :: r) [p0, p1, p2] = false
      simp only [containsSeq, startsWith_cons_ne (show b ≠ p0 by omega), Bool.false_or]
      exact ih
    · have r2 := hc2
      simp only [isCont, decide_eq_true_eq] at r2
      show containsSeq (b :: b2 :: r) [p0, p1, p2] = false
      simp only [containsSeq, startsWith_cons_ne (show b ≠ p0 by omega),
        startsWith_cons_ne (show b2 ≠ p0 by omega), Bool.false_or]
      exact ih
    · have r2 := cont3Ok_range hc2
      have r3 := hc3
      simp only [isCont, decide_eq_true_eq] at r3
      show containsSeq (b :: b2 :: b3 :: r) [p0, p1, p2] = false
      have hne : startsWith (b :: b2 :: b3 :: r) [p0, p1, p2] = false := by
        by_cases e1 : b = p0
        · by_cases e2 : b2 = p1
          · by_cases e3 : b3 = p2
            · exact absurd (by simp [e1, e2, e3]) (h3 _ hmem)
            · simp [startsWith, e3]
          · simp [startsWith, e2]
        · exact startsWith_cons_ne e1
      simp only [containsSeq, hne,
        startsWith_cons_ne (show b2 ≠ p0 by omega),
        startsWith_cons_ne (show b3 ≠ p0 by omega), Bool.false_or]
      exact ih
    · have r2 := cont4Ok_range hc2
      have r3 := hc3
      have r4 := hc4
      simp only [isCont, decide_eq_true_eq] at r3 r4
      show containsSeq (b :: b2 :: b3 :: b4 :: r) [p0, p1, p2] = false
      simp only [containsSeq, startsWith_cons_ne (show b ≠ p0 by omega),
        startsWith_cons_ne (show b2 ≠ p0 by omega),
        startsWith_cons_ne (show b3 ≠ p0 by omega),
        startsWith_cons_ne (show b4 ≠ p0 by omega), Bool.false_or]
      exact ih

/-- Good output contains none of the forbidden sequences. -/
theorem goodOut_no_banned {l : List Nat} (hl : GoodOut l) :
    ∀ pat ∈ bannedSeqs, containsSeq l pat = false := by
  intro pat hp
  have hp' := hp
  simp only [bannedSeqs, List.mem_cons, List.not_mem_nil, or_false] at hp'
  rcases hp' with rfl | rfl | rfl | rfl | rfl
  all_goals exact goodOut_not_contains_aux (by omega) hp hl

/-- Multi-byte characters end in a continuation byte, so a good output
whose last byte is ASCII loses exactly one whole character when that byte
is removed. -/
theorem goodOut_dropLast {l : List Nat} (hl : GoodOut l)
    (hlast : ∀ b, l.getLast? = some b → b ≤ 0x7F) : GoodOut l.dropLast := by
  induction hl with
  | nil => exact GoodOut.nil
  | @space r hr ih =>
    rcases eq_or_ne r [] with rfl | hne
    · exact GoodOut.nil
    · rw [List.dropLast_cons_of_ne_nil hne]
      obtain ⟨x, t, rfl⟩ := List.exists_cons_of_ne_nil hne
      refine GoodOut.space (ih ?_)
      intro b hb
      exact hlast b (by rwa [List.getLast?_cons_cons])
  | @nl r hr ih =>
    rcases eq_or_ne r [] with rfl | hne
    · exact GoodOut.nil
    · rw [List.dropLast_cons_of_ne_nil hne]
      obtain ⟨x, t, rfl⟩ := List.exists_cons_of_ne_nil hne
      refine GoodOut.nl (ih ?_)
      intro b hb
      exact hlast b (by rwa [List.getLast?_cons_cons])
  | @chr c r h1 h2 h3 hr ih =>
    rcases eq_or_ne r [] with rfl | hne
    · rw [List.append_nil] at hlast ⊢
      rcases utf8CharB_cases h1 with ⟨b, rfl, hb⟩ | ⟨b, b2, rfl, hb, hc2⟩ |
        ⟨b, b2, b3, rfl, hb, hc2, hc3⟩ | ⟨b, b2, b3, b4, rfl, hb, hc2, hc3, hc4⟩
      · exact GoodOut.nil
      · have := hlast b2 (by simp)
        simp only [isCont, decide_eq_true_eq] at hc2
        omega
      · have := hlast b3 (by simp)
        simp only [isCont, decide_eq_true_eq] at hc3
        omega
      · have := hlast b4 (by simp)
        simp only [isCont, decide_eq_true_eq] at hc4
        omega
    · rw [List.dropLast_append_of_ne_nil _ hne]
      refine GoodOut.chr h1 h2 h3 (ih ?_)
      intro b hb
      exact hlast b (by rwa [List.getLast?_append_of_ne_nil _ hne])

/-- Evaluation of `trimTrailing` on a snoc: pop the last byte iff it satisfies `p`. -/
theorem trimTrailing_concat (p : Nat → Bool) (l : List Nat) (a : Nat) :
    trimTrailing p (l ++ [a]) = if p a then trimTrailing p l else l ++ [a] := by
  unfold trimTrailing
  rw [List.reverse_append]
  simp only [List.reverse_singleton, List.singleton_append, List.dropWhile_cons]
  split_ifs with h
  · rfl
  · simp

/-- Trimming trailing ASCII bytes preserves goodness of the output. -/
theorem goodOut_trim {p : Nat → Bool} (hp : ∀ b, p b = true → b ≤ 0x7F)
    {l : List Nat} (hl : GoodOut l) : GoodOut (trimTrailing p l) := by
  induction l using List.reverseRecOn with
  | nil => exact GoodOut.nil
  | append_singleton l a ih =>
    rw [trimTrailing_concat]
    split_ifs with h
    · refine ih ?_
      have hdl := goodOut_dropLast hl ?_
      · rwa [List.dropLast_concat] at hdl
      · intro b hb
        rw [List.getLast?_concat] at hb
        injection hb with hb
        subst hb
        exact hp a h
    · exact hl

/-- The cleaner's output is always a concatenation of good chunks. -/
theorem goodOut_pdf_text_clean (text : List Nat) (u : Bool) :
    GoodOut (pdf_text_clean text u) := by
  unfold pdf_text_clean
  split_ifs with h1 h2
  · exact GoodOut.nil
  · exact GoodOut.nil
  · exact goodOut_trim
      (by intro b hb; simp only [isDashDot, Bool.or_eq_true, beq_iff_eq] at hb; omega)
      (goodOut_trim (by intro b hb; simp only [isSpaceB, decide_eq_true_eq] at hb; omega)
        (goodOut_cleanLoop text text.length u text.length ⟨cleanStart text, true, false⟩))

/-- C4: for every input byte buffer of positive length (valid UTF-8 or
not) and either URL mode, the output of `pdf_text_clean` is valid UTF-8
(the empty string included), contains no control byte below 0x20 other
than tab, newline and carriage return, and contains none of U+FFFD,
U+200B, U+200C, U+200D, U+2060. -/
theorem pdf_text_clean_wellformed (text : List Nat) (u : Bool) (h : 0 < text.length) :
    Utf8Valid (pdf_text_clean text u) = true ∧
    (∀ b ∈ pdf_text_clean text u, AllowedByte b) ∧
    (∀ pat ∈ bannedSeqs, containsSeq (pdf_text_clean text u) pat = false) := by
  have hg := goodOut_pdf_text_clean text u
  exact ⟨goodOut_utf8 hg, goodOut_allowed hg, goodOut_no_banned hg⟩

/-- Witness for C4 at the concrete buffer [0x01, 0x41, 0xEF]: positive
length holds and the three conclusions evaluate. -/
theorem pdf_text_clean_wellformed_witness :
    0 < ([1, 65, 0xEF] : List Nat).length ∧
      (Utf8Valid (pdf_text_clean [1, 65, 0xEF] false) = true ∧
        (∀ b ∈ pdf_text_clean [1, 65, 0xEF] false, AllowedByte b) ∧
        (∀ pat ∈ bannedSeqs, containsSeq (pdf_text_clean [1, 65, 0xEF] false) pat = false)) :=
  ⟨by decide, pdf_text_clean_wellformed [1, 65, 0xEF] false (by decide)⟩

/-! ## Claim theorems: search cache key (C1), walker transaction (C2) -/

/-- C1: the `/api/search` handler computes the same cache key
`search:a` for the filtered request (`q=a`, `file_id=7`) and the
unfiltered one (`q=a`), so the two requests share one cache entry,
whereas the specified key format `search:<q>:<file_filter|all>`
distinguishes them; the entry is stored with a 60-second TTL. -/
theorem pdf_search_cache_key_ignores_filter :
    pdf_search_cache_key (asciiStr "a") (some (asciiStr "7")) =
      pdf_search_cache_key (asciiStr "a") none ∧
    spec_search_cache_key (asciiStr "a") (some (asciiStr "7")) ≠
      spec_search_cache_key (asciiStr "a") none ∧
    pdf_search_cache_ttl = 60 := by decide

/-- C2: in a non-dryrun run that submits a single document task which
fails but is still unfinished when the walker's deferred blocks run, the
trace issues COMMIT (the flag is still true at that instant) before the
worker-pool join, although the only task fails — refuting both "COMMIT is
issued only after all tasks have finished" and "ROLLBACK is issued
whenever any task has set the flag to false". -/
theorem process_pdfs_commit_before_join :
    process_pdfs_trace [⟨false, false⟩] true =
      [WalkerEvent.beginTx, WalkerEvent.insertFile 0, WalkerEvent.submitTask 0,
       WalkerEvent.endTx true, WalkerEvent.destroyMainConn, WalkerEvent.joinWorkerPool] ∧
    ([⟨false, false⟩] : List IndexTask).all (fun t => t.ok) = false := by decide

/-! ## Claim theorems: text cleaner scenarios (C3, C8, C9) -/

/-- The C3 failing input: a single `'.'` at position 2 followed by plain
letters, with more than 10 bytes remaining. -/
def c3FailingInput : List Nat := asciiStr "ab. cdefghijklm"

/-- C3: the buffer `"ab. cdefghijklm"` contains exactly one `-`/`.` byte,
yet the cleaner erases everything: the lookahead condition
`ahead == '-' || c == '.'` counts every byte of the window once the run
opened with `'.'` (13 "dashes" here), the whole tail is collapsed and the
2-byte remainder falls below the 3-byte floor.  The claim's behaviour —
the `'.'` copied through — does not happen. -/
theorem pdf_text_clean_dot_swallows_text :
    pdf_text_clean c3FailingInput false = [] ∧
    (c3FailingInput.filter isDashDot).length = 1 ∧
    (dashScan c3FailingInput c3FailingInput.length 2 46).1 = 13 := by decide

/-- The spec §8 scenario-3 input: `\x01Hello\xEF\xBF\xBDworld   http://x.y)\n\n\nfoo`,
ten dashes, space, `bar`. -/
def scenario3Input : List Nat :=
  [1] ++ asciiStr "Hello" ++ [0xEF, 0xBF, 0xBD] ++ asciiStr "world   http://x.y)" ++
  [10, 10, 10] ++ asciiStr "foo" ++ List.replicate 10 45 ++ [32] ++ asciiStr "bar"

/-- C8 counterexample: on the scenario input the cleaner does NOT produce
the 20-byte string `"Hello world\n\nfoo bar"` claimed by the spec. -/
theorem pdf_text_clean_scenario3_counterexample :
    pdf_text_clean scenario3Input true ≠ asciiStr "Hello world\n\nfoo bar" := by decide

/-- C8 amended: the cleaner produces the 18-byte valid-UTF-8 string
`"Helloworld foo bar"`: the replacement character is dropped without a
separator space (so `Hello` and `world` join), and the URL skip leaves
the space flag set, so the following newlines are absorbed instead of
forming a paragraph break; the dash run still collapses to one space. -/
theorem pdf_text_clean_scenario3 :
    pdf_text_clean scenario3Input true = asciiStr "Helloworld foo bar" ∧
    (pdf_text_clean scenario3Input true).length = 18 ∧
    Utf8Valid (pdf_text_clean scenario3Input true) = true := by decide

/-- C9 counterexample: cleaning is not idempotent.  `" 5abcdefgh"` cleans
to `"5abcdefgh"` (the leading space is trimmed, the digit is kept because
the page-number trim only runs when the first byte is a digit), but a
second cleaning strips the now-leading digit, producing `"abcdefgh"`. -/
theorem pdf_text_clean_not_idempotent :
    pdf_text_clean (asciiStr " 5abcdefgh") false = asciiStr "5abcdefgh" ∧
    pdf_text_clean (pdf_text_clean (asciiStr " 5abcdefgh") false) false =
      asciiStr "abcdefgh" ∧
    pdf_text_clean (pdf_text_clean (asciiStr " 5abcdefgh") false) false ≠
      pdf_text_clean (asciiStr " 5abcdefgh") false := by decide

/-- C9 amended: idempotence holds on the inputs whose first cleaning
yields the empty string (re-cleaning empty output is a fixed point); in
general a second cleaning can strip further (see the counterexample). -/
theorem pdf_text_clean_idempotent_on_empty (x : List Nat) (u : Bool)
    (h : pdf_text_clean x u = []) :
    pdf_text_clean (pdf_text_clean x u) u = pdf_text_clean x u := by
  rw [h]
  cases u <;> decide

/-- Witness for the amended C9 at the concrete input `"."`, whose
cleaning is empty (the lone dot is consumed by the leading-dash trim and
the empty remainder is below the 3-byte floor). -/
theorem pdf_text_clean_idempotent_on_empty_witness :
    pdf_text_clean (asciiStr ".") false = [] ∧
    pdf_text_clean (pdf_text_clean (asciiStr ".") false) false =
      pdf_text_clean (asciiStr ".") false :=
  ⟨by decide, pdf_text_clean_idempotent_on_empty (asciiStr ".") false (by decide)⟩

/-! ## Claim theorems: cache error behaviour (C6, C10) -/

/-- A full capacity-1 cache holding the key `k`. -/
def c6Cache : ResponseCache := ⟨[⟨[107], [5], 100⟩], 1, 300⟩

/-- C6 counterexample: inserting a fresh key into a full cache with the
entry allocation failing returns failure, but the cache is NOT unchanged:
the LRU victim was already evicted before the allocation was attempted,
so the state differs (the old entry is gone). -/
theorem response_cache_set_evicts_on_failure :
    (response_cache_set 0 c6Cache [108] [6] 0 [false]).1 = false ∧
    (response_cache_set 0 c6Cache [108] [6] 0 [false]).2 ≠ c6Cache ∧
    (response_cache_set 0 c6Cache [108] [6] 0 [false]).2.entries = [] := by decide

/-- The allocation oracle of an all-successful run answers true. -/
theorem allocs_getD_true {allocs : List Bool} (h : ∀ b ∈ allocs, b = true) (i : Nat) :
    allocs[i]?.getD true = true := by
  induction allocs generalizing i with
  | nil => simp
  | cons a t ih =>
    cases i with
    | zero => simpa using h a (List.mem_cons_self a t)
    | succ j => simpa using ih (fun b hb => h b (List.mem_cons_of_mem a hb)) j

/-- Unfolding `response_cache_set` on a fresh valid key (insert path). -/
theorem response_cache_set_insert (now : Int) (c : ResponseCache) (key value : List Nat)
    (ttl : Nat) (allocs : List Bool) (h1 : key ≠ []) (h2 : key.length < 256)
    (hfind : findEntry c.entries key = none) :
    response_cache_set now c key value ttl allocs =
      if allocs.getD 0 true = true then
        if allocs.getD 1 true = true then
          (true, ⟨⟨key, value, now + (ttlOf c ttl : Int)⟩ ::
                    (if c.capacity ≤ c.entries.length then evict_lru c else c).entries,
                  c.capacity, c.default_ttl⟩)
        else (false, if c.capacity ≤ c.entries.length then evict_lru c else c)
      else (false, if c.capacity ≤ c.entries.length then evict_lru c else c) := by
  unfold response_cache_set
  rw [if_neg h1, if_neg (by simp only [CACHE_KEY_MAX_LEN]; omega), hfind]

/-- Unfolding `response_cache_set` on an existing valid key (update path). -/
theorem response_cache_set_update (now : Int) (c : ResponseCache) (key value : List Nat)
    (ttl : Nat) (allocs : List Bool) (e : CacheEntry) (h1 : key ≠ []) (h2 : key.length < 256)
    (hfind : findEntry c.entries key = some e) :
    response_cache_set now c key value ttl allocs =
      if allocs.getD 0 true = true then
        (true, ⟨⟨key, value, now + (ttlOf c ttl : Int)⟩ :: removeEntry c.entries key,
                c.capacity, c.default_ttl⟩)
      else (false, c) := by
  unfold response_cache_set
  rw [if_neg h1, if_neg (by simp only [CACHE_KEY_MAX_LEN]; omega), hfind]

/-- C6 amended: `response_cache_set` fails exactly on an invalid key
(empty, or 256 bytes and longer) or a failed allocation; an invalid key
and an update-path allocation failure leave the cache unchanged, but an
insert-path allocation failure may find the LRU victim already evicted —
the state on failure is the old state or its eviction. -/
theorem response_cache_set_failure_behavior (now : Int) (c : ResponseCache)
    (key value : List Nat) (ttl : Nat) (allocs : List Bool) :
    ((key = [] ∨ 256 ≤ key.length) →
      response_cache_set now c key value ttl allocs = (false, c)) ∧
    ((∀ b ∈ allocs, b = true) → key ≠ [] → key.length < 256 →
      (response_cache_set now c key value ttl allocs).1 = true) ∧
    ((response_cache_set now c key value ttl allocs).1 = false →
      (response_cache_set now c key value ttl allocs).2 = c ∨
      (response_cache_set now c key value ttl allocs).2 = evict_lru c) := by
  refine ⟨?_, ?_, ?_⟩
  · intro h
    unfold response_cache_set
    rcases h with h | h
    · rw [if_pos h]
    · rcases eq_or_ne key [] with rfl | hne
      · rw [if_pos rfl]
      · rw [if_neg hne, if_pos (by simpa [CACHE_KEY_MAX_LEN] using h)]
  · intro hall hne hlen
    unfold response_cache_set
    rw [if_neg hne, if_neg (by simp [CACHE_KEY_MAX_LEN]; omega)]
    rcases hfind : findEntry c.entries key with _ | e
    · simp [allocs_getD_true hall]
    · simp [allocs_getD_true hall]
  · intro hfail
    by_cases h1 : key = []
    · left
      unfold response_cache_set
      rw [if_pos h1]
    by_cases h2 : CACHE_KEY_MAX_LEN ≤ key.length
    · left
      unfold response_cache_set
      rw [if_neg h1, if_pos h2]
    have h2' : key.length < 256 := by simp only [CACHE_KEY_MAX_LEN] at h2; omega
    rcases hfind : findEntry c.entries key with _ | e
    · rw [response_cache_set_insert now c key value ttl allocs h1 h2' hfind] at hfail ⊢
      by_cases h3 : allocs.getD 0 true = true
      · rw [if_pos h3] at hfail ⊢
        by_cases h4 : allocs.getD 1 true = true
        · rw [if_pos h4] at hfail
          simp at hfail
        · rw [if_neg h4]
          by_cases h5 : c.capacity ≤ c.entries.length
          · rw [if_pos h5]
            exact Or.inr rfl
          · rw [if_neg h5]
            exact Or.inl rfl
      · rw [if_neg h3]
        by_cases h5 : c.capacity ≤ c.entries.length
        · rw [if_pos h5]
          exact Or.inr rfl
        · rw [if_neg h5]
          exact Or.inl rfl
    · rw [response_cache_set_update now c key value ttl allocs e h1 h2' hfind] at hfail ⊢
      by_cases h3 : allocs.getD 0 true = true
      · rw [if_pos h3] at hfail
        simp at hfail
      · rw [if_neg h3]
        exact Or.inl rfl

/-- Witness for the amended C6: the empty key fails with the cache
unchanged, and a valid fresh key with successful allocations succeeds. -/
theorem response_cache_set_failure_behavior_witness :
    response_cache_set 0 (response_cache_create 2 300) [] [1] 0 [] =
      (false, response_cache_create 2 300) ∧
    (response_cache_set 0 (response_cache_create 2 300) [107] [1] 60 []).1 = true :=
  ⟨(response_cache_set_failure_behavior 0 (response_cache_create 2 300) [] [1] 0 []).1
      (Or.inl rfl),
   (response_cache_set_failure_behavior 0 (response_cache_create 2 300) [107] [1] 60 []).2.1
      (by intro b hb; exact absurd hb (List.not_mem_nil b)) (by decide) (by decide)⟩

/-- C10: `response_cache_set` called with a null cache, a null key, a
null value, or an empty key returns false and leaves the cache (if any)
completely unchanged. -/
theorem response_cache_set_raw_null_guard (now : Int) (cache? : Option ResponseCache)
    (key? value? : Option (List Nat)) (ttl : Nat) (allocs : List Bool)
    (h : cache? = none ∨ key? = none ∨ value? = none ∨ key? = some []) :
    response_cache_set_raw now cache? key? value? ttl allocs = (false, cache?) := by
  match cache?, key?, value? with
  | none, _, _ => rfl
  | some c, none, _ => rfl
  | some c, some k, none => rfl
  | some c, some k, some v =>
    rcases h with h | h | h | h
    · exact absurd h (by simp)
    · exact absurd h (by simp)
    · exact absurd h (by simp)
    · have hk : k = [] := by injection h
      subst hk
      simp [response_cache_set_raw, response_cache_set]

/-- Witness for C10: the empty-key call on a concrete cache. -/
theorem response_cache_set_raw_null_guard_witness :
    response_cache_set_raw 0 (some (response_cache_create 1 300)) (some []) (some [1]) 0 [] =
      (false, some (response_cache_create 1 300)) :=
  response_cache_set_raw_null_guard 0 (some (response_cache_create 1 300)) (some []) (some [1])
    0 [] (Or.inr (Or.inr (Or.inr rfl)))

/-! ## Claim theorems: reference/index classification (C5) -/

/-- A 159-byte cleaned page text of four paragraph-separated lines; two
lines carry the year pattern `(2021)`/`(2022)` and nothing else fires:
no URLs, DOIs or `et al.`, no digit-majority, no short lines, no capital
starts, no header prefix. -/
def c5Text : List Nat :=
  asciiStr "in (2021) we saw the results emerge" ++ [10, 10] ++
  asciiStr "in (2022) we saw the joined output rise" ++ [10, 10] ++
  asciiStr "the weather was mild and calm here today" ++ [10, 10] ++
  asciiStr "another plain line of simple words here"

set_option maxRecDepth 20000 in
/-- C5 counterexample: on `c5Text` exactly one soft signal fires — the
year-pattern ratio (2 of 4 lines, 0.5 > 0.4); no hard header matches, no
other reference signal holds (URL, DOI and et-al counters are 0 and the
digit-line count 2 is not above 0.7·4), and the index classifier rejects
it — yet `is_reference_page` classifies the page and `pdf_text_clean`
zeroes it.  A single soft signal alone does trigger classification,
contradicting the claim's "at least two soft signals of the same
category". -/
theorem is_reference_page_single_signal_counterexample :
    refStatsOf c5Text c5Text.length =
      ⟨4, 2, 0, 0, 0, 2, 0, 0⟩ ∧
    matchAt c5Text 0 (asciiStr "References") = false ∧
    matchAt c5Text 0 (asciiStr "REFERENCES") = false ∧
    matchAt c5Text 0 (asciiStr "Bibliography") = false ∧
    matchAt c5Text 0 (asciiStr "BIBLIOGRAPHY") = false ∧
    matchAt c5Text 0 (asciiStr "Index") = false ∧
    matchAt c5Text 0 (asciiStr "INDEX") = false ∧
    is_index_page c5Text c5Text.length = false ∧
    is_reference_page c5Text c5Text.length = true ∧
    pdf_text_clean c5Text false = [] := by decide

/-- C5 amended (classification thresholds): a page under 50 bytes or with
fewer than 3 nonempty lines is never classified as a reference page, and
a single strong soft signal suffices — any page of at least 50 bytes and
3 lines whose year-pattern line ratio exceeds 0.4 is classified, with no
second signal required. -/
theorem is_reference_page_single_soft_signal :
    (∀ (text : List Nat) (len : Nat), len < 50 → is_reference_page text len = false) ∧
    (∀ (text : List Nat) (len : Nat), (refStatsOf text len).line_count < 3 →
      is_reference_page text len = false) ∧
    (∀ (text : List Nat) (len : Nat), 50 ≤ len →
      3 ≤ (refStatsOf text len).line_count →
      2 * (refStatsOf text len).line_count < 5 * (refStatsOf text len).with_year →
      is_reference_page text len = true) := by
  refine ⟨?_, ?_, ?_⟩
  · intro text len h
    simp only [is_reference_page]
    rw [if_pos h]
  · intro text len h
    simp only [is_reference_page]
    by_cases h1 : len < 50
    · rw [if_pos h1]
    · rw [if_neg h1, if_pos h]
  · intro text len h1 h2 h3
    simp only [is_reference_page]
    rw [if_neg (by omega), if_neg (by omega)]
    have hy : ratioGt (refStatsOf text len).with_year (refStatsOf text len).line_count 2 5 =
        true := by
      simp only [ratioGt, decide_eq_true_eq]
      omega
    simp [hy]

set_option maxRecDepth 20000 in
/-- Witness for the amended C5 at `c5Text`: 50 ≤ 159, the line count is
4 ≥ 3, the year ratio 2/4 exceeds 2/5, and the theorem classifies it. -/
theorem is_reference_page_single_soft_signal_witness :
    50 ≤ c5Text.length ∧
    3 ≤ (refStatsOf c5Text c5Text.length).line_count ∧
    2 * (refStatsOf c5Text c5Text.length).line_count <
      5 * (refStatsOf c5Text c5Text.length).with_year ∧
    is_reference_page c5Text c5Text.length = true :=
  ⟨by decide, by decide, by decide,
   is_reference_page_single_soft_signal.2.2 c5Text c5Text.length (by decide) (by decide)
     (by decide)⟩

/-! ## Claim theorems: LRU eviction law (C7) -/

/-- Lookup misses when no stored key matches. -/
theorem findEntry_none_of_fresh {es : List CacheEntry} {k : List Nat}
    (h : ∀ e ∈ es, e.key ≠ k) : findEntry es k = none := by
  unfold findEntry
  rw [List.find?_eq_none]
  intro e he
  simpa using h e he

/-- Lookup over entries built by a key-preserving constructor finds
the constructed entry of any listed key. -/
theorem findEntry_map_of_mem (f : List Nat → CacheEntry) (hf : ∀ x, (f x).key = x)
    {l : List (List Nat)} {k : List Nat} (hk : k ∈ l) :
    findEntry (l.map f) k = some (f k) := by
  induction l with
  | nil => exact absurd hk (List.not_mem_nil k)
  | cons a t ih =>
    unfold findEntry at ih ⊢
    rw [List.map_cons, List.find?_cons]
    by_cases ha : a = k
    · subst ha
      simp [hf]
    · have hbeq : ((f a).key == k) = false := by simp [hf, ha]
      rw [hbeq]
      exact ih ((List.mem_cons.1 hk).resolve_left (fun h => ha h.symm))

/-- Lookup over constructed entries misses on an unlisted key. -/
theorem findEntry_map_of_not_mem (f : List Nat → CacheEntry) (hf : ∀ x, (f x).key = x)
    {l : List (List Nat)} {k : List Nat} (hk : k ∉ l) :
    findEntry (l.map f) k = none := by
  apply findEntry_none_of_fresh
  intro e he
  rw [List.mem_map] at he
  obtain ⟨x, hx, rfl⟩ := he
  rw [hf]
  intro h
  exact hk (h ▸ hx)

/-- Unfolding `setAll` on a cons. -/
theorem setAll_cons (now : Int) (t : Nat) (vf : List Nat → List Nat) (c : ResponseCache)
    (k : List Nat) (ks : List (List Nat)) :
    setAll now t vf c (k :: ks) =
      setAll now t vf (response_cache_set now c k (vf k) t []).2 ks := rfl

/-- Unfolding `setAll` on an append. -/
theorem setAll_append (now : Int) (t : Nat) (vf : List Nat → List Nat) (c : ResponseCache)
    (l1 l2 : List (List Nat)) :
    setAll now t vf c (l1 ++ l2) = setAll now t vf (setAll now t vf c l1) l2 :=
  List.foldl_append _ _ l1 l2

/-- Filling an un-full cache with fresh, pairwise-distinct, valid keys
stacks the new entries in reverse submission order on top of the old
ones, with no eviction. -/
theorem setAll_fresh_fill (now : Int) (t : Nat) (ht : 0 < t) (vf : List Nat → List Nat)
    (C d : Nat) :
    ∀ (ks : List (List Nat)) (es : List CacheEntry),
      es.length + ks.length ≤ C →
      (∀ k ∈ ks, k ≠ [] ∧ k.length < 256) →
      ks.Nodup →
      (∀ k ∈ ks, ∀ e ∈ es, e.key ≠ k) →
      setAll now t vf ⟨es, C, d⟩ ks =
        ⟨ks.reverse.map (fun k => ⟨k, vf k, now + (t : Int)⟩) ++ es, C, d⟩ := by
  intro ks
  induction ks with
  | nil =>
    intro es hlen hval hnd hfresh
    simp [setAll]
  | cons k rest ih =>
    intro es hlen hval hnd hfresh
    rw [setAll_cons]
    have hk := hval k (List.mem_cons_self k rest)
    have hfind : findEntry es k = none :=
      findEntry_none_of_fresh (fun e he => hfresh k (List.mem_cons_self k rest) e he)
    rw [response_cache_set_insert now ⟨es, C, d⟩ k (vf k) t [] hk.1 hk.2 hfind]
    have g0 : ([] : List Bool).getD 0 true = true := rfl
    have g1 : ([] : List Bool).getD 1 true = true := rfl
    rw [if_pos g0, if_pos g1]
    have hlt : ¬ ((⟨es, C, d⟩ : ResponseCache).capacity ≤
        (⟨es, C, d⟩ : ResponseCache).entries.length) := by
      simp only [List.length_cons] at hlen ⊢
      omega
    rw [if_neg hlt]
    have httl : ttlOf ⟨es, C, d⟩ t = t := by
      unfold ttlOf
      rw [if_pos ht]
    rw [httl]
    have ih' := ih (⟨k, vf k, now + (t : Int)⟩ :: es)
      (by simp only [List.length_cons] at hlen ⊢; omega)
      (fun k' hk' => hval k' (List.mem_cons_of_mem k hk'))
      (List.Nodup.of_cons hnd)
      (by
        intro k' hk' e he
        rcases List.mem_cons.1 he with rfl | he
        · intro hkey
          simp only at hkey
          subst hkey
          exact (List.nodup_cons.1 hnd).1 hk'
        · exact hfresh k' (List.mem_cons_of_mem k hk') e he)
    rw [ih']
    simp [List.reverse_cons, List.map_append]

/-- Unfolding `response_cache_get` on a miss. -/
theorem response_cache_get_missing (now : Int) (c : ResponseCache) (key : List Nat)
    (hfind : findEntry c.entries key = none) :
    response_cache_get now c key = (none, c) := by
  unfold response_cache_get
  rw [hfind]

/-- Unfolding `response_cache_get` on a found entry. -/
theorem response_cache_get_found (now : Int) (c : ResponseCache) (key : List Nat)
    (e : CacheEntry) (hfind : findEntry c.entries key = some e) :
    response_cache_get now c key =
      if e.expires_at ≤ now then (none, response_cache_invalidate c key)
      else (some e.value, ⟨e :: removeEntry c.entries key, c.capacity, c.default_ttl⟩) := by
  unfold response_cache_get
  rw [hfind]

/-- C7: the LRU eviction law.  On a fresh cache of capacity `C ≥ 1`,
setting `C+1` pairwise-distinct valid keys (`k1` then `rest`, all with a
positive TTL so nothing expires, all allocations succeeding) evicts
exactly the first key: `get k1` misses, `get k` hits with the stored
value for every later key, and no prefix of the sequence ever leaves more
than `C` entries in the cache. -/
theorem response_cache_lru_eviction_law (C : Nat) (hC : 1 ≤ C) (now : Int) (t : Nat)
    (ht : 0 < t) (vf : List Nat → List Nat) (k1 : List Nat) (rest : List (List Nat))
    (hlen : rest.length = C) (hnd : (k1 :: rest).Nodup)
    (hvalid : ∀ k ∈ k1 :: rest, k ≠ [] ∧ k.length < 256) :
    (response_cache_get now
        (setAll now t vf (response_cache_create C 300) (k1 :: rest)) k1).1 = none ∧
    (∀ k ∈ rest,
      (response_cache_get now
        (setAll now t vf (response_cache_create C 300) (k1 :: rest)) k).1 = some (vf k)) ∧
    (∀ j, (setAll now t vf (response_cache_create C 300)
        ((k1 :: rest).take j)).entries.length ≤ C) := by
  have hcr : response_cache_create C 300 = ⟨[], C, 300⟩ := by
    unfold response_cache_create
    rw [if_pos (by omega : 0 < C), if_pos (by norm_num : 0 < 300)]
  rcases List.eq_nil_or_concat rest with rfl | ⟨rd, klast, rfl⟩
  · exfalso
    simp only [List.length_nil] at hlen
    omega
  rw [List.concat_eq_append] at hlen hnd hvalid ⊢
  have hrd : rd.length + 1 = C := by simpa using hlen
  have hk1notin : k1 ∉ rd ++ [klast] := (List.nodup_cons.1 hnd).1
  have hndrest : (rd ++ [klast]).Nodup := (List.nodup_cons.1 hnd).2
  have hklastrd : klast ∉ rd := by
    intro hmem
    exact ((List.nodup_append.1 hndrest).2.2 hmem) (List.mem_singleton_self klast)
  have hk1klast : k1 ≠ klast := by
    intro h
    exact hk1notin (by rw [h]; exact List.mem_append_right rd (List.mem_singleton_self klast))
  have hk1rd : k1 ∉ rd := fun h => hk1notin (List.mem_append_left _ h)
  -- Phase 1: the first C keys fill the cache without eviction.
  have hfill := setAll_fresh_fill now t ht vf C 300 (k1 :: rd) []
    (by simp only [List.length_nil, List.length_cons]; omega)
    (fun k hk => hvalid k (by
      rcases List.mem_cons.1 hk with rfl | hk
      · exact List.mem_cons_self _ _
      · exact List.mem_cons_of_mem _ (List.mem_append_left _ hk)))
    (((List.sublist_append_left rd [klast]).cons₂ k1).nodup hnd)
    (by intro k _ e he; exact absurd he (List.not_mem_nil e))
  rw [List.append_nil, List.reverse_cons, List.map_append, List.map_singleton] at hfill
  -- Phase 2: the final set evicts the LRU tail, which is k1's entry.
  have hvk : klast ≠ [] ∧ klast.length < 256 :=
    hvalid klast (List.mem_cons_of_mem _ (List.mem_append_right rd (List.mem_singleton_self _)))
  have hfinal : setAll now t vf (response_cache_create C 300) (k1 :: (rd ++ [klast])) =
      ⟨(klast :: rd.reverse).map (fun k => ⟨k, vf k, now + (t : Int)⟩), C, 300⟩ := by
    rw [hcr, show k1 :: (rd ++ [klast]) = (k1 :: rd) ++ [klast] from rfl,
      setAll_append, hfill, setAll_cons]
    have hfind : findEntry
        (List.map (fun k => (⟨k, vf k, now + (t : Int)⟩ : CacheEntry)) rd.reverse ++
          [⟨k1, vf k1, now + (t : Int)⟩]) klast = none := by
      have : (List.map (fun k => (⟨k, vf k, now + (t : Int)⟩ : CacheEntry)) rd.reverse ++
          [(⟨k1, vf k1, now + (t : Int)⟩ : CacheEntry)]) =
          (rd.reverse ++ [k1]).map (fun k => (⟨k, vf k, now + (t : Int)⟩ : CacheEntry)) := by
        rw [List.map_append, List.map_singleton]
      rw [this]
      refine findEntry_map_of_not_mem _ (fun x => rfl) ?_
      intro hmem
      rcases List.mem_append.1 hmem with h | h
      · exact hklastrd (List.mem_reverse.1 h)
      · exact hk1klast ((List.mem_singleton.1 h).symm)
    rw [response_cache_set_insert now _ klast (vf klast) t [] hvk.1 hvk.2 hfind]
    have g0 : ([] : List Bool).getD 0 true = true := rfl
    have g1 : ([] : List Bool).getD 1 true = true := rfl
    rw [if_pos g0, if_pos g1]
    have hcap : (⟨List.map (fun k => (⟨k, vf k, now + (t : Int)⟩ : CacheEntry)) rd.reverse ++
        [⟨k1, vf k1, now + (t : Int)⟩], C, 300⟩ : ResponseCache).capacity ≤
        (⟨List.map (fun k => (⟨k, vf k, now + (t : Int)⟩ : CacheEntry)) rd.reverse ++
        [⟨k1, vf k1, now + (t : Int)⟩], C, 300⟩ : ResponseCache).entries.length := by
      simp only [List.length_append, List.length_map, List.length_reverse,
        List.length_singleton]
      omega
    rw [if_pos hcap]
    have httl : ttlOf ⟨List.map (fun k => (⟨k, vf k, now + (t : Int)⟩ : CacheEntry)) rd.reverse ++
        [⟨k1, vf k1, now + (t : Int)⟩], C, 300⟩ t = t := by
      unfold ttlOf
      rw [if_pos ht]
    rw [httl]
    show setAll now t vf _ [] = _
    unfold setAll
    rw [List.foldl_nil]
    unfold evict_lru
    simp only [List.dropLast_concat, List.map_cons]
  refine ⟨?_, ?_, ?_⟩
  · rw [hfinal, response_cache_get_missing now _ k1
      (findEntry_map_of_not_mem _ (fun x => rfl) (by
        intro hmem
        rcases List.mem_cons.1 hmem with h | h
        · exact hk1klast h
        · exact hk1rd (List.mem_reverse.1 h)))]
  · intro k hk
    have hkmem : k ∈ klast :: rd.reverse := by
      rcases List.mem_append.1 hk with h | h
      · exact List.mem_cons_of_mem _ (List.mem_reverse.2 h)
      · rw [List.mem_singleton.1 h]
        exact List.mem_cons_self _ _
    have hfind2 : findEntry
        ((⟨(klast :: rd.reverse).map (fun k => (⟨k, vf k, now + (t : Int)⟩ : CacheEntry)),
          C, 300⟩ : ResponseCache)).entries k = some ⟨k, vf k, now + (t : Int)⟩ :=
      findEntry_map_of_mem _ (fun x => rfl) hkmem
    rw [hfinal, response_cache_get_found now _ k ⟨k, vf k, now + (t : Int)⟩ hfind2]
    rw [if_neg (show ¬((⟨k, vf k, now + (t : Int)⟩ : CacheEntry).expires_at ≤ now) by
      show ¬(now + (t : Int) ≤ now)
      omega)]
  · intro j
    by_cases hj : j ≤ C
    · have hjlen : ((k1 :: (rd ++ [klast])).take j).length = j := by
        simp only [List.length_take, List.length_cons, List.length_append,
          List.length_singleton]
        omega
      rw [hcr, setAll_fresh_fill now t ht vf C 300 _ []
        (by simp only [List.length_nil, hjlen]; omega)
        (fun k hk => hvalid k (List.mem_of_mem_take hk))
        ((List.take_sublist j _).nodup hnd)
        (by intro k _ e he; exact absurd he (List.not_mem_nil e))]
      simp only [List.append_nil, List.length_map, List.length_reverse]
      rw [hjlen]
      omega
    · rw [List.take_of_length_le (by
        simp only [List.length_cons, List.length_append, List.length_singleton,
          List.length_nil]
        omega)]
      rw [hfinal]
      simp only [List.length_map, List.length_cons, List.length_reverse]
      omega

/-- Witness for C7: capacity 1, keys `k`/`l` (bytes 107/108), identity
values, TTL 60 at time 0 — after both sets, `get k` misses and `get l`
hits, and both prefixes stay within capacity. -/
theorem response_cache_lru_eviction_law_witness :
    (response_cache_get 0 (setAll 0 60 id (response_cache_create 1 300) [[107], [108]])
      [107]).1 = none ∧
    (response_cache_get 0 (setAll 0 60 id (response_cache_create 1 300) [[107], [108]])
      [108]).1 = some [108] := by
  have h := response_cache_lru_eviction_law 1 (by decide) 0 60 (by decide) id [107] [[108]]
    (by decide) (by decide) (by decide)
  exact ⟨h.1, h.2.1 [108] (List.mem_singleton_self [108])⟩
